import Mathlib

/-!
Verification of the labeled-interval aggregation engine of the
DBU-Divisionen reporting dashboard, shallowly embedded from the two
scripts `HIK.py` and `hik_u17.py`.  Rows of the CSV tables become
`Event` records; pandas Series keyed by round become functions
`Nat → Option ℚ` (where `none` is an absent key); durations and sums are
exact rationals.
-/

namespace DBU

/-- One row of a loaded CSV table: the `ROUND` tag added by the page, the
`code` column, the numeric `start` and `end` columns (the latter named
`stop` because `end` is a Lean keyword) and the optional `parent`
column (`none` embeds a missing / NaN parent). -/
structure Event where
  round : Nat
  code : String
  start : ℚ
  stop : ℚ
  parent : Option String
deriving DecidableEq

/-- Placeholder event used as the default of positional lookups. -/
def dummyEvent : Event := ⟨0, "", 0, 0, none⟩

/-- Duration of an event, `end - start`, as computed by every
`df["end"] - df["start"]` line of the source. -/
def dur (e : Event) : ℚ := e.stop - e.start

/-- Embeds `compute_sequence_time` (both scripts): filter the rows whose
`code` equals the sequence type, group by `ROUND`, and sum durations.
A round with no matching row is an absent key (`none`), exactly as a
pandas groupby omits it. -/
def compute_sequence_time (df : List Event) (seq : String) : Nat → Option ℚ :=
  fun r =>
    let evs := df.filter (fun e => e.code == seq && e.round == r)
    if evs.isEmpty then none else some ((evs.map dur).sum)

/-- Embeds `Series.add(other, fill_value=0)`: a key absent from both
operands stays absent; otherwise missing values are filled with 0. -/
def seriesAdd (f g : Nat → Option ℚ) : Nat → Option ℚ := fun r =>
  match f r, g r with
  | none, none => none
  | fa, ga => some (fa.getD 0 + ga.getD 0)

/-- Embeds `series / n` (pandas divides each stored value, keeping keys). -/
def seriesDivN (f : Nat → Option ℚ) (n : Nat) : Nat → Option ℚ :=
  fun r => (f r).map (fun x => x / (n : ℚ))

/-- Embeds the percentage formula of `hik_u17.match_analysis_page`:
`100 * num.get(r, 0) / den.get(r, 1)`.  When the denominator looked up
with default 1 is 0 (a key present with value 0), the Python division
produces NaN; that invalid outcome is embedded as `none`. -/
def pctOf (num den : Nat → Option ℚ) (r : Nat) : Option ℚ :=
  let dv := (den r).getD 1
  if dv = 0 then none else some (100 * (num r).getD 0 / dv)

/-- `active_times` of `match_analysis_page`. -/
def active_times (df : List Event) : Nat → Option ℚ := compute_sequence_time df "Active"

/-- `dead_times` of `match_analysis_page`. -/
def dead_times (df : List Event) : Nat → Option ℚ := compute_sequence_time df "Dead"

/-- `total_times = active_times.add(dead_times, fill_value=0)`. -/
def total_times (df : List Event) : Nat → Option ℚ := seriesAdd (active_times df) (dead_times df)

/-- The active percentage of a round, from `hik_u17.py` line 132. -/
def active_pct (df : List Event) (r : Nat) : Option ℚ := pctOf (active_times df) (total_times df) r

/-- The dead percentage of a round, from `hik_u17.py` line 133. -/
def dead_pct (df : List Event) (r : Nat) : Option ℚ := pctOf (dead_times df) (total_times df) r

/-- Embeds the "All rounds" path of `match_analysis_page`: list the
available files; if none are listed, return early (`none`); load each
file, keeping the ones that parse; if none load, return early; otherwise
concatenate them and divide the per-round sequence time by the number of
*listed* files (`n_files = len(get_available_files(team_choice))`). -/
def matchAllRoundsSeqTime (files : List String) (load : String → Option (List Event))
    (seq : String) : Option (Nat → Option ℚ) :=
  if files.isEmpty then none
  else
    let dfs := files.filterMap load
    if dfs.isEmpty then none
    else some (seriesDivN (compute_sequence_time dfs.flatten seq) files.length)

/-- Modelled from the spec: the Session Normalizer of §4.4, which rescales
by the count of sessions *actually contributing data* (the files that
loaded) and fails (`none`, the spec's `InsufficientDataError`) when that
count is zero.  Stated from the spec's words, for comparison with
`matchAllRoundsSeqTime` above, which is the code's behavior. -/
def specNormalizedSeqTime (files : List String) (load : String → Option (List Event))
    (seq : String) : Option (Nat → Option ℚ) :=
  let dfs := files.filterMap load
  if dfs.isEmpty then none
  else some (seriesDivN (compute_sequence_time dfs.flatten seq) dfs.length)

/-- The per-round value of the code's "All rounds" normalized series
(`none` when the page returned early). -/
def evalAllRounds (files : List String) (load : String → Option (List Event))
    (seq : String) (r : Nat) : Option (Option ℚ) :=
  (matchAllRoundsSeqTime files load seq).map (fun f => f r)

/-- The per-round value of the spec-modelled normalized series. -/
def evalSpecNormalized (files : List String) (load : String → Option (List Event))
    (seq : String) (r : Nat) : Option (Option ℚ) :=
  (specNormalizedSeqTime files load seq).map (fun f => f r)

/-- Embeds `load_csv_from_github` (both scripts): `pd.read_csv` inside
`try/except`; a successful parse is returned unchanged (no validation of
any kind), a failed parse is converted to `None` after displaying an
error message. -/
def load_csv_from_github (res : Except String (List Event)) : Option (List Event) :=
  match res with
  | .ok df => some df
  | .error _ => none

/-- Sum of durations of the rows whose `code` equals `cat`, divided by 60:
the per-category minutes computed by the category charts of both scripts
(`cat_df = df[df["code"] == cat]; cat_df["duration_sec"].sum() / 60`). -/
def catMinutes (l : List Event) (cat : String) : ℚ :=
  ((l.filter (fun e => e.code == cat)).map dur).sum / 60

/-- The ordered block-marker list of `training_visualizations`. -/
def blocks : List String :=
  ["Warm Up (S)", "Block 1 (S)", "Block 2 (S)", "Block 3 (S)", "Block 4 (S)",
   "Block 5 (S)", "Individual (S)"]

/-- The sub-activity category list of `training_visualizations`. -/
def categories : List String := ["Organization", "Coaching", "Active"]

/-- The phase-of-play category list of `active_time_distribution`. -/
def sequence_codes : List String :=
  ["Build Up", "Breakthrough", "Afslutningsspillet", "Off Transition",
   "Defend the box", "Low", "Medium", "High", "Def Transition"]

/-- The HIK.py category chart (lines 210-228): one `(cat, minutes)` pair
per declared category, in declared order, zero when no row matches. -/
def categoryMinutesList (df : List Event) : List (String × ℚ) :=
  categories.map (fun c => (c, catMinutes df c))

/-- The positions at which `code` equals the marker, in ascending order:
embeds `df.index[df["code"] == block].tolist()`. -/
def codeIndices (df : List Event) (m : String) : List Nat :=
  (List.range df.length).filter (fun k => (df.getD k dummyEvent).code == m)

/-- The slice start of a marker: the first element of `codeIndices`
(`block_indices[0]`), or `none` when the marker is absent. -/
def blockStartIdx (df : List Event) (m : String) : Option Nat :=
  (codeIndices df m).head?

/-- The slice end for block `i` of `training_visualizations` (HIK.py
lines 244-248): the first position of the next marker when there is a
next marker and it occurs, otherwise `len(df)`. -/
def blockEndIdx (df : List Event) (i : Nat) : Nat :=
  if i + 1 < blocks.length then
    match blockStartIdx df (blocks.getD (i + 1) "") with
    | some j => j
    | none => df.length
  else df.length

/-- The positional slice `df.iloc[start_idx:end_idx]` for block `i`,
empty when the marker is absent. -/
def blockSlice (df : List Event) (i : Nat) : List Event :=
  match blockStartIdx df (blocks.getD i "") with
  | none => []
  | some s => (df.drop s).take (blockEndIdx df i - s)

/-- Per-block per-category minutes of the grouped chart of
`training_visualizations` (HIK.py lines 234-255): zero when the marker is
absent, otherwise the category sum over the positional slice, in minutes. -/
def blockCatMinutes (df : List Event) (i : Nat) (cat : String) : ℚ :=
  catMinutes (blockSlice df i) cat

/-- Reference formulation of a positional slice: walking the list with a
position counter `k`, keep exactly the elements whose position lies in
`[s, e)`. -/
def posSliceAux : List Event → Nat → Nat → Nat → List Event
  | [], _, _, _ => []
  | x :: xs, k, s, e =>
    if s ≤ k ∧ k < e then x :: posSliceAux xs (k + 1) s e
    else posSliceAux xs (k + 1) s e

/-- The events of `df` occupying positions `s ≤ k < e`. -/
def posSlice (df : List Event) (s e : Nat) : List Event := posSliceAux df 0 s e

/-- Position `s` holds the first occurrence of marker `m` in `df`,
counting from index 0 of the whole sequence. -/
def isFirstOcc (df : List Event) (m : String) (s : Nat) : Prop :=
  s < df.length ∧ (df.getD s dummyEvent).code = m ∧
    ∀ k, k < s → (df.getD k dummyEvent).code ≠ m

/-- Whether the first list starts the second, on character lists. -/
def charsStartWith : List Char → List Char → Bool
  | [], _ => true
  | _ :: _, [] => false
  | p :: ps, c :: cs => p == c && charsStartWith ps cs

/-- Whether `pat` occurs as a contiguous run inside the argument list. -/
def charsContain (pat : List Char) : List Char → Bool
  | [] => charsStartWith pat []
  | c :: cs => charsStartWith pat (c :: cs) || charsContain pat cs

/-- Embeds `Series.str.contains(pat)` as called by `hik_u17.py` line 312.
Pandas treats the pattern as a regular expression; in the patterns the
script passes (the block markers `"... (S)"` and the plain category
names) the only metacharacters are the parentheses, which merely group a
single literal, so `re.search(pat, s)` holds exactly when `s` contains
the pattern with its parentheses removed. -/
def strContainsRegex (s pat : String) : Bool :=
  charsContain (pat.data.filter (fun c => !(c == '(' || c == ')'))) s.data

/-- The first grouped chart of `hik_u17.training_visualizations` (lines
285-289): per-block per-category minutes attributing a row when
`parent == block` and `code == cat`. -/
def parentBlockCat (df : List Event) (block cat : String) : ℚ :=
  ((df.filter (fun e => e.parent == some block && e.code == cat)).map dur).sum / 60

/-- The second grouped chart of `hik_u17.training_visualizations` (lines
310-317): per-block per-category minutes attributing a row when its code
matches both the block marker and the category under
`str.contains`. -/
def containsBlockCat (df : List Event) (block cat : String) : ℚ :=
  ((df.filter (fun e => strContainsRegex e.code block && strContainsRegex e.code cat)).map dur).sum / 60

/-- Modelled from the spec: the single fallback aggregator of §4.3, which
tries parent-reference attribution first and only falls back to literal
substring containment (label contains the marker name and the category
name) when the event carries no parent reference to the block.  Stated
from the spec's words, for comparison with the two independent charts
`parentBlockCat` and `containsBlockCat` the code computes. -/
def specFallbackBlockCat (df : List Event) (block cat : String) : ℚ :=
  ((df.filter (fun e =>
      if e.parent = some block then e.code == cat
      else charsContain block.data e.code.data && charsContain cat.data e.code.data)).map dur).sum / 60

/-- Insert a string into an ascending list, preserving order. -/
def insertAsc (s : String) : List String → List String
  | [] => [s]
  | x :: xs => if s < x then s :: x :: xs else x :: insertAsc s xs

/-- Sort a list of strings ascending by insertion. -/
def sortAsc (l : List String) : List String := l.foldr insertAsc []

/-- The group keys produced by a pandas `groupby("code")`: the distinct
codes present in the data, sorted ascending. -/
def groupKeys (df : List Event) : List String :=
  sortAsc (df.map (fun e => e.code)).dedup

/-- Embeds `active_time_distribution` of `hik_u17.match_analysis_page`
(lines 161-171): filter to the phase-of-play codes, group by `code`
(pandas sorts the keys and keeps only codes present in the data), sum
durations and convert to minutes. -/
def active_time_distribution (df : List Event) : List (String × ℚ) :=
  let active_df := df.filter (fun e => sequence_codes.contains e.code)
  (groupKeys active_df).map (fun c => (c, catMinutes active_df c))

/-- Per-code value of the phase-of-play distribution: the total duration
in minutes of the rows carrying code `c`, among the phase-of-play rows.
This is the `sum_by_category` instance of the claims. -/
def distValue (df : List Event) (c : String) : ℚ :=
  catMinutes (df.filter (fun e => sequence_codes.contains e.code)) c

lemma posSliceAux_eq (l : List Event) :
    ∀ (k s e : Nat), posSliceAux l k s e = (l.drop (s - k)).take (e - max s k) := by
  induction l with
  | nil => intro k s e; simp [posSliceAux]
  | cons x xs ih =>
    intro k s e
    by_cases h1 : s ≤ k
    · by_cases h2 : k < e
      · rw [posSliceAux, if_pos ⟨h1, h2⟩, ih (k + 1) s e]
        have hs0 : s - k = 0 := Nat.sub_eq_zero_of_le h1
        have hs1 : s - (k + 1) = 0 := Nat.sub_eq_zero_of_le (Nat.le_succ_of_le h1)
        have hm : max s k = k := Nat.max_eq_right h1
        have hm1 : max s (k + 1) = k + 1 := Nat.max_eq_right (Nat.le_succ_of_le h1)
        have he : e - k = (e - (k + 1)) + 1 := by omega
        rw [hs0, hs1, hm, hm1, he]
        simp
      · rw [posSliceAux, if_neg (by tauto), ih (k + 1) s e]
        have hm : max s k = k := Nat.max_eq_right h1
        have hm1 : max s (k + 1) = k + 1 := Nat.max_eq_right (Nat.le_succ_of_le h1)
        rw [hm, hm1]
        have he : e - (k + 1) = 0 := by omega
        have he' : e - k = 0 := by omega
        rw [he, he']
        simp
    · rw [posSliceAux, if_neg (by tauto), ih (k + 1) s e]
      have hk : k + 1 ≤ s := by omega
      have hm : max s k = s := Nat.max_eq_left (by omega)
      have hm1 : max s (k + 1) = s := Nat.max_eq_left hk
      have hd : s - k = (s - (k + 1)) + 1 := by omega
      rw [hm, hm1, hd]
      simp

lemma posSlice_eq_drop_take (l : List Event) (s e : Nat) :
    posSlice l s e = (l.drop s).take (e - s) := by
  rw [posSlice, posSliceAux_eq l 0 s e]
  simp

lemma head_filter_range_spec (p : Nat → Bool) :
    ∀ (n s : Nat), ((List.range n).filter p).head? = some s →
      s < n ∧ p s = true ∧ ∀ k, k < s → p k = false := by
  intro n
  induction n with
  | zero => intro s h; simp at h
  | succ n ih =>
    intro s h
    rw [List.range_succ, List.filter_append] at h
    cases hf : (List.range n).filter p with
    | nil =>
      rw [hf, List.nil_append] at h
      by_cases hp : p n
      · rw [List.filter_cons, if_pos hp] at h
        simp at h
        subst h
        refine ⟨Nat.lt_succ_self n, hp, ?_⟩
        intro k hk
        have := (List.filter_eq_nil_iff.mp hf) k (List.mem_range.mpr hk)
        simpa using this
      · rw [List.filter_cons, if_neg hp] at h
        simp at h
    | cons x xs =>
      rw [hf] at h
      simp at h
      obtain ⟨hxn, hps, hlt⟩ := ih x (by rw [hf]; rfl)
      subst h
      exact ⟨Nat.lt_succ_of_lt hxn, hps, hlt⟩

lemma blockStartIdx_isFirstOcc (df : List Event) (m : String) (s : Nat)
    (h : blockStartIdx df m = some s) : isFirstOcc df m s := by
  obtain ⟨hn, hps, hlt⟩ := head_filter_range_spec _ _ _ h
  refine ⟨hn, by simpa using hps, ?_⟩
  intro k hk
  have := hlt k hk
  simpa using this

lemma blockStartIdx_eq_none (df : List Event) (m : String)
    (h : ∀ e ∈ df, e.code ≠ m) : blockStartIdx df m = none := by
  rw [blockStartIdx]
  have hnil : codeIndices df m = [] := by
    rw [codeIndices, List.filter_eq_nil_iff]
    intro k hk
    have hklt : k < df.length := List.mem_range.mp hk
    have hmem : df.getD k dummyEvent ∈ df := by
      rw [List.getD_eq_getElem df dummyEvent hklt]
      exact List.getElem_mem hklt
    simpa using h _ hmem
  rw [hnil]
  rfl

lemma seriesAdd_eq_none_iff (f g : Nat → Option ℚ) (r : Nat) :
    seriesAdd f g r = none ↔ f r = none ∧ g r = none := by
  rw [seriesAdd]
  cases f r <;> cases g r <;> simp

lemma seriesAdd_eq_some (f g : Nat → Option ℚ) (r : Nat) (t : ℚ)
    (h : seriesAdd f g r = some t) : t = (f r).getD 0 + (g r).getD 0 := by
  rw [seriesAdd] at h
  cases hf : f r <;> cases hg : g r <;> rw [hf, hg] at h <;> simp_all

lemma distValue_perm (df df' : List Event) (h : df.Perm df') (c : String) :
    distValue df c = distValue df' c := by
  rw [distValue, distValue, catMinutes, catMinutes]
  have h1 := (h.filter (fun e => sequence_codes.contains e.code)).filter
    (fun e => e.code == c)
  exact congrArg (fun x => x / 60) ((h1.map dur).sum_eq)

lemma length_filterMap_of_isSome (load : String → Option (List Event)) :
    ∀ (files : List String), (∀ f ∈ files, (load f).isSome) →
      (files.filterMap load).length = files.length := by
  intro files
  induction files with
  | nil => intro _; rfl
  | cons f fs ih =>
    intro h
    have hf : (load f).isSome := h f (List.mem_cons_self f fs)
    obtain ⟨v, hv⟩ := Option.isSome_iff_exists.mp hf
    rw [List.filterMap_cons, hv]
    simp only [List.length_cons]
    rw [ih (fun g hg => h g (List.mem_cons_of_mem f hg))]

/-- A round with an `Active` event of zero duration: its total (key
present, value 0) triggers the unguarded zero division. -/
def df3 : List Event := [⟨1, "Active", 5, 5, none⟩]

/-- The worked example of the spec: 120 s Active, 30 s Dead in round 1. -/
def dfB : List Event := [⟨1, "Active", 0, 120, none⟩, ⟨1, "Dead", 120, 150, none⟩]

/-- Two listed files of which only the first loads. -/
def files2 : List String := ["a", "b"]

/-- Loader for `files2`: file "a" parses to one 120 s Active event in
round 1, file "b" fails to load. -/
def load2 : String → Option (List Event) :=
  fun s => if s = "a" then some [⟨1, "Active", 0, 120, none⟩] else none

/-- A training session in which `Warm Up (S)` is present, `Block 1 (S)`
is absent and `Block 2 (S)` is present, with Active events between and
after the markers. -/
def df9 : List Event :=
  [⟨0, "Warm Up (S)", 0, 0, none⟩, ⟨0, "Active", 0, 60, none⟩,
   ⟨0, "Block 2 (S)", 0, 0, none⟩, ⟨0, "Active", 0, 30, none⟩]

/-- A match log containing a `Build Up` and a `Breakthrough` event:
declared order puts Build Up first, alphabetical order the reverse. -/
def df8 : List Event := [⟨1, "Build Up", 0, 60, none⟩, ⟨1, "Breakthrough", 0, 30, none⟩]

/-- Marker before the Active event. -/
def l1 : List Event := [⟨0, "Warm Up (S)", 0, 0, none⟩, ⟨0, "Active", 0, 60, none⟩]

/-- The same two events with the marker after the Active event. -/
def l2 : List Event := [⟨0, "Active", 0, 60, none⟩, ⟨0, "Warm Up (S)", 0, 0, none⟩]

/-- One event attributable only by label containment (its code holds the
marker and the category, it has no parent), one attributable only by
parent reference. -/
def df4 : List Event :=
  [⟨0, "Block 1 (S) Active", 0, 60, none⟩, ⟨0, "Active", 0, 60, some "Block 1 (S)"⟩]

/-- An event with `end < start`. -/
def badEv : Event := ⟨1, "Active", 10, 5, none⟩

/-- A session for the segmentation witness: `Warm Up (S)` present at
position 0, `Block 1 (S)` absent. -/
def dfW1 : List Event := [⟨0, "Warm Up (S)", 0, 0, none⟩, ⟨0, "Coaching", 0, 120, none⟩]

/-- An event matching neither block-attribution condition. -/
def eW4 : Event := ⟨0, "Organization", 0, 30, none⟩

/-- C5 counterexample: the claim says loading an event with `end < start`
raises `ValidationError`; the code accepts the table unchanged and the
event flows into aggregation with a negative duration. -/
theorem C5_counterexample :
    load_csv_from_github (.ok [badEv]) = some [badEv]
    ∧ badEv.stop < badEv.start
    ∧ compute_sequence_time [badEv] "Active" 1 = some (-5) := by
  refine ⟨rfl, by norm_num [badEv], ?_⟩
  simp +decide [compute_sequence_time, badEv, dur, List.filter]
  norm_num

/-- C5 amended: loading performs no validation at all: a successfully
parsed table is returned unchanged (events with `end < start` included,
later yielding negative durations), and a parse failure is converted to
`None` after displaying a message, not propagated as an exception. -/
theorem C5_amended :
    (∀ df : List Event, load_csv_from_github (.ok df) = some df)
    ∧ (∀ msg : String, load_csv_from_github (.error msg) = none)
    ∧ compute_sequence_time [badEv] "Active" 1 = some (-5)
    ∧ dur badEv < 0 := by
  refine ⟨fun df => rfl, fun msg => rfl, ?_, by norm_num [dur, badEv]⟩
  simp +decide [compute_sequence_time, badEv, dur, List.filter]
  norm_num

/-- C8 counterexample: on `df8` the distribution lists `Breakthrough`
before `Build Up`, while the declared category order (`sequence_codes`)
lists `Build Up` (index 0) before `Breakthrough` (index 1); the output
order is therefore not the declared order. -/
theorem C8_counterexample :
    (active_time_distribution df8).map Prod.fst = ["Breakthrough", "Build Up"]
    ∧ sequence_codes.indexOf "Build Up" = 0
    ∧ sequence_codes.indexOf "Breakthrough" = 1
    ∧ (["Breakthrough", "Build Up"] : List String) ≠ ["Build Up", "Breakthrough"] := by
  refine ⟨?_, by decide, by decide, by decide⟩
  simp +decide [active_time_distribution, groupKeys, sortAsc, insertAsc, catMinutes,
    sequence_codes, df8, dur, List.filter, List.dedup]

/-- C8 amended: the HIK.py training category chart does return its pairs
in the category set's declared order for every input log, but the
hik_u17 `active_time_distribution` returns its pairs sorted
alphabetically by label and only for labels present in the data, so its
order and content depend on the data. -/
theorem C8_amended :
    (∀ df : List Event, (categoryMinutesList df).map Prod.fst = categories)
    ∧ (active_time_distribution df8).map Prod.fst = ["Breakthrough", "Build Up"]
    ∧ (active_time_distribution [] : List (String × ℚ)) = [] := by
  refine ⟨fun df => ?_, ?_, rfl⟩
  · rw [categoryMinutesList, List.map_map,
      show (Prod.fst ∘ fun c => (c, catMinutes df c)) = id from rfl, List.map_id]
  · simp +decide [active_time_distribution, groupKeys, sortAsc, insertAsc, catMinutes,
      sequence_codes, df8, dur, List.filter, List.dedup]

/-- C9: on `df9`, marker 0 (`Warm Up (S)`) is present, marker 1
(`Block 1 (S)`) is absent and marker 2 (`Block 2 (S)`) is present; block
0's slice extends to the end of the sequence, so the final Active event
(position 3, inside block 2) lies in both slices and its 30 s are
counted in both blocks' Active totals (90 s = 3/2 min for block 0,
30 s = 1/2 min for block 2). -/
theorem C9_overlapping_slices :
    blockEndIdx df9 0 = df9.length
    ∧ df9.getD 3 dummyEvent ∈ blockSlice df9 0
    ∧ df9.getD 3 dummyEvent ∈ blockSlice df9 2
    ∧ blockCatMinutes df9 0 "Active" = 3/2
    ∧ blockCatMinutes df9 2 "Active" = 1/2 := by
  refine ⟨by decide, by decide, by decide, ?_, ?_⟩
  · simp +decide [blockCatMinutes, catMinutes, blockSlice, blockStartIdx, blockEndIdx,
      codeIndices, blocks, df9, dur, dummyEvent, List.filter, List.range_succ]
    norm_num
  · simp +decide [blockCatMinutes, catMinutes, blockSlice, blockStartIdx, blockEndIdx,
      codeIndices, blocks, df9, dur, dummyEvent, List.filter, List.range_succ]
    norm_num

/-- C2 counterexample: with two listed files of which only one loads
(contributing 120 s of Active time in round 1), the code divides by the
number of listed files and reports 60 s, while the claim's normalizer
(divide by the number of contributing sessions) reports 120 s. -/
theorem C2_counterexample :
    evalAllRounds files2 load2 "Active" 1 = some (some 60)
    ∧ evalSpecNormalized files2 load2 "Active" 1 = some (some 120)
    ∧ (some (some (60 : ℚ)) : Option (Option ℚ)) ≠ some (some (120 : ℚ)) := by
  refine ⟨?_, ?_, by norm_num⟩
  · simp +decide [evalAllRounds, matchAllRoundsSeqTime, seriesDivN, compute_sequence_time,
      files2, load2, dur, List.filterMap, List.filter]
    norm_num
  · simp +decide [evalSpecNormalized, specNormalizedSeqTime, seriesDivN, compute_sequence_time,
      files2, load2, dur, List.filterMap, List.filter]

/-- C2 amended: the "All rounds" normalization divides by the number of
*listed* files; when no files are listed, or none of them loads, the
page returns early (no error is raised — no `InsufficientDataError`
exists in the code); the code agrees with the spec's
per-contributing-session normalizer exactly when every listed file
loads. -/
theorem C2_amended (files : List String) (load : String → Option (List Event)) (seq : String) :
    (files = [] → matchAllRoundsSeqTime files load seq = none)
    ∧ (files.filterMap load = [] → matchAllRoundsSeqTime files load seq = none)
    ∧ ((∀ f ∈ files, (load f).isSome) → files ≠ [] →
        matchAllRoundsSeqTime files load seq = specNormalizedSeqTime files load seq) := by
  refine ⟨?_, ?_, ?_⟩
  · intro h
    subst h
    rfl
  · intro h
    rw [matchAllRoundsSeqTime]
    by_cases hf : files.isEmpty
    · rw [if_pos hf]
    · rw [if_neg hf]
      simp only [h]
      rfl
  · intro hall hne
    have hlen := length_filterMap_of_isSome load files hall
    have hfe : files.isEmpty = false := by
      cases files with
      | nil => exact absurd rfl hne
      | cons x xs => rfl
    have hde : (files.filterMap load).isEmpty = false := by
      rcases hq : files.filterMap load with _ | ⟨x, xs⟩
      · rw [hq] at hlen
        cases files with
        | nil => exact absurd rfl hne
        | cons f fs => simp at hlen
      · rfl
    simp [matchAllRoundsSeqTime, specNormalizedSeqTime, hfe, hde, hlen]

/-- C2 amended witness at concrete inputs: the empty listing returns
early, and with a single file that loads, the code equals the spec
normalizer. -/
theorem C2_witness :
    matchAllRoundsSeqTime [] load2 "Active" = none
    ∧ matchAllRoundsSeqTime ["a"] load2 "Active" = specNormalizedSeqTime ["a"] load2 "Active" :=
  ⟨(C2_amended [] load2 "Active").1 rfl,
   (C2_amended ["a"] load2 "Active").2.2 (by decide) (by decide)⟩

/-- C3 counterexample: round 1 of `df3` has one Active event of zero
duration, so its key is present in the total with value 0; the code's
`get(r, 1)` default does not engage and the division is by zero (NaN,
embedded as `none`), not the claimed 0% — for the active and the dead
percentage alike. -/
theorem C3_counterexample :
    active_pct df3 1 = none
    ∧ dead_pct df3 1 = none
    ∧ (none : Option ℚ) ≠ some 0 := by
  refine ⟨?_, ?_, by decide⟩
  · simp +decide [active_pct, pctOf, active_times, dead_times, total_times, seriesAdd,
      compute_sequence_time, df3, dur, List.filter]
  · simp +decide [dead_pct, pctOf, active_times, dead_times, total_times, seriesAdd,
      compute_sequence_time, df3, dur, List.filter]

/-- C3 amended: for a group key absent from the total mapping the
percentage is 0 (the lookup default 1 engages and the numerator is
necessarily 0); for a key present with a nonzero total the percentage is
`100 * numerator / total`; for a key present with total 0 the division
is by zero and the result invalid (`none`), not 0%. -/
theorem C3_amended (df : List Event) (r : Nat) :
    (total_times df r = none → active_pct df r = some 0 ∧ dead_pct df r = some 0)
    ∧ (∀ t : ℚ, total_times df r = some t → t ≠ 0 →
        active_pct df r = some (100 * (active_times df r).getD 0 / t)
        ∧ dead_pct df r = some (100 * (dead_times df r).getD 0 / t))
    ∧ (total_times df r = some 0 → active_pct df r = none ∧ dead_pct df r = none) := by
  refine ⟨?_, ?_, ?_⟩
  · intro h
    obtain ⟨ha, hd⟩ := (seriesAdd_eq_none_iff (active_times df) (dead_times df) r).mp h
    constructor
    · simp [active_pct, pctOf, h, ha]
    · simp [dead_pct, pctOf, h, hd]
  · intro t ht htne
    constructor
    · simp [active_pct, pctOf, ht, htne]
    · simp [dead_pct, pctOf, ht, htne]
  · intro h
    constructor
    · simp [active_pct, pctOf, h]
    · simp [dead_pct, pctOf, h]

/-- C3 amended witness: all three branches at concrete inputs — the
empty log (absent key, 0%), the spec's worked example (total 150 s,
80%/20%), and the zero-duration log (total present and 0, invalid). -/
theorem C3_witness :
    (active_pct ([] : List Event) 1 = some 0 ∧ dead_pct ([] : List Event) 1 = some 0)
    ∧ (active_pct dfB 1 = some (100 * (active_times dfB 1).getD 0 / 150))
    ∧ (active_pct df3 1 = none ∧ dead_pct df3 1 = none) :=
  ⟨(C3_amended [] 1).1 rfl,
   ((C3_amended dfB 1).2.1 150 (by
      simp +decide [total_times, seriesAdd, active_times, dead_times,
        compute_sequence_time, dfB, dur, List.filter]) (by norm_num)).1,
   (C3_amended df3 1).2.2 (by
      simp +decide [total_times, seriesAdd, active_times, dead_times,
        compute_sequence_time, df3, dur, List.filter])⟩

/-- C6: whenever the combined Active + Dead total of a round is strictly
positive, both percentages are defined and their sum is exactly 100,
hence within the claimed 0.1 tolerance of 100. -/
theorem C6_percent_sum (df : List Event) (r : Nat)
    (h : 0 < (total_times df r).getD 0) :
    (active_pct df r).isSome ∧ (dead_pct df r).isSome ∧
      |(active_pct df r).getD 0 + (dead_pct df r).getD 0 - 100| ≤ 1 / 10 := by
  cases ht : total_times df r with
  | none => rw [ht] at h; simp at h
  | some t =>
    have htv : t = (active_times df r).getD 0 + (dead_times df r).getD 0 :=
      seriesAdd_eq_some (active_times df) (dead_times df) r t ht
    rw [ht] at h
    simp only [Option.getD_some] at h
    have htne : t ≠ 0 := ne_of_gt h
    have ha : active_pct df r = some (100 * (active_times df r).getD 0 / t) := by
      simp [active_pct, pctOf, ht, htne]
    have hd : dead_pct df r = some (100 * (dead_times df r).getD 0 / t) := by
      simp [dead_pct, pctOf, ht, htne]
    rw [ha, hd]
    refine ⟨rfl, rfl, ?_⟩
    simp only [Option.getD_some]
    have hsum : 100 * (active_times df r).getD 0 / t + 100 * (dead_times df r).getD 0 / t
        = 100 := by
      rw [div_add_div_same, ← mul_add, ← htv, mul_div_assoc, div_self htne, mul_one]
    rw [hsum]
    norm_num

/-- C6 witness at the spec's worked example (total 150 s in round 1). -/
theorem C6_witness :
    (active_pct dfB 1).isSome ∧ (dead_pct dfB 1).isSome ∧
      |(active_pct dfB 1).getD 0 + (dead_pct dfB 1).getD 0 - 100| ≤ 1 / 10 :=
  C6_percent_sum dfB 1 (by
    simp +decide [total_times, seriesAdd, active_times, dead_times, compute_sequence_time,
      dfB, dur, List.filter])

lemma seriesDivN_eq_none_iff (f : Nat → Option ℚ) (n : Nat) (r : Nat) :
    seriesDivN f n r = none ↔ f r = none := by
  rw [seriesDivN]
  cases f r <;> simp

lemma seriesDivN_getD (f : Nat → Option ℚ) (n : Nat) (r : Nat) :
    (seriesDivN f n r).getD 0 = (f r).getD 0 / (n : ℚ) := by
  rw [seriesDivN]
  cases f r <;> simp

lemma seriesAdd_eq_some_of_not_none (f g : Nat → Option ℚ) (r : Nat)
    (h : ¬(f r = none ∧ g r = none)) :
    seriesAdd f g r = some ((f r).getD 0 + (g r).getD 0) := by
  rw [seriesAdd]
  cases hf : f r <;> cases hg : g r <;> simp_all

/-- C10: dividing both the Active and the Dead series by a positive
session count before forming the total and the percentages yields the
same percentages as the unnormalized series, for every group key —
including the degenerate cases (key absent: 0% both before and after;
total zero: invalid both before and after). -/
theorem C10_norm_commutes (a d : Nat → Option ℚ) (n : Nat) (hn : 0 < n) (r : Nat) :
    pctOf (seriesDivN a n) (seriesAdd (seriesDivN a n) (seriesDivN d n)) r
        = pctOf a (seriesAdd a d) r
    ∧ pctOf (seriesDivN d n) (seriesAdd (seriesDivN a n) (seriesDivN d n)) r
        = pctOf d (seriesAdd a d) r := by
  have hnq : (n : ℚ) ≠ 0 := Nat.cast_ne_zero.mpr (Nat.pos_iff_ne_zero.mp hn)
  by_cases hb : a r = none ∧ d r = none
  · have h1 : seriesAdd a d r = none := (seriesAdd_eq_none_iff a d r).mpr hb
    have h2 : seriesAdd (seriesDivN a n) (seriesDivN d n) r = none :=
      (seriesAdd_eq_none_iff _ _ r).mpr
        ⟨(seriesDivN_eq_none_iff a n r).mpr hb.1, (seriesDivN_eq_none_iff d n r).mpr hb.2⟩
    constructor
    · simp [pctOf, h1, h2, seriesDivN, hb.1, hb.2]
    · simp [pctOf, h1, h2, seriesDivN, hb.1, hb.2]
  · have hb' : ¬(seriesDivN a n r = none ∧ seriesDivN d n r = none) := by
      rw [seriesDivN_eq_none_iff, seriesDivN_eq_none_iff]
      exact hb
    have h1 := seriesAdd_eq_some_of_not_none a d r hb
    have h2 := seriesAdd_eq_some_of_not_none (seriesDivN a n) (seriesDivN d n) r hb'
    rw [seriesDivN_getD, seriesDivN_getD, div_add_div_same] at h2
    by_cases hz : (a r).getD 0 + (d r).getD 0 = 0
    · have hz' : ((a r).getD 0 + (d r).getD 0) / (n : ℚ) = 0 := by rw [hz, zero_div]
      constructor
      · simp [pctOf, h1, h2, hz, hz']
      · simp [pctOf, h1, h2, hz, hz']
    · have hz' : ((a r).getD 0 + (d r).getD 0) / (n : ℚ) ≠ 0 := div_ne_zero hz hnq
      have key : ∀ X : ℚ,
          100 * (X / (n : ℚ)) / (((a r).getD 0 + (d r).getD 0) / (n : ℚ))
            = 100 * X / ((a r).getD 0 + (d r).getD 0) := by
        intro X
        rw [mul_div_assoc, div_div_div_cancel_right₀ hnq, ← mul_div_assoc]
      constructor
      · simp [pctOf, h1, h2, hz, hz', seriesDivN_getD, key]
      · simp [pctOf, h1, h2, hz, hz', seriesDivN_getD, key]

/-- C10 witness at a concrete pair of mappings and session count 2. -/
theorem C10_witness :
    pctOf (seriesDivN (active_times dfB) 2)
        (seriesAdd (seriesDivN (active_times dfB) 2) (seriesDivN (dead_times dfB) 2)) 1
      = pctOf (active_times dfB) (seriesAdd (active_times dfB) (dead_times dfB)) 1 :=
  (C10_norm_commutes (active_times dfB) (dead_times dfB) 2 (by norm_num) 1).1

/-- C7: the per-code phase-of-play totals are invariant under any
permutation of the events, while the index-range block totals are not:
moving the Active event of `l1` in front of the `Warm Up (S)` marker
(a permutation) changes the block's Active minutes from 1 to 0. -/
theorem C7_perm_asymmetry :
    (∀ (df df' : List Event), df.Perm df' → ∀ c : String, distValue df c = distValue df' c)
    ∧ l1.Perm l2
    ∧ blockCatMinutes l1 0 "Active" = 1
    ∧ blockCatMinutes l2 0 "Active" = 0 := by
  refine ⟨distValue_perm, by decide, ?_, ?_⟩
  · simp +decide [blockCatMinutes, catMinutes, blockSlice, blockStartIdx, blockEndIdx,
      codeIndices, blocks, l1, dur, dummyEvent, List.filter, List.range_succ]
  · simp +decide [blockCatMinutes, catMinutes, blockSlice, blockStartIdx, blockEndIdx,
      codeIndices, blocks, l2, dur, dummyEvent, List.filter, List.range_succ]

/-- C7 witness: the permutation-invariance half applied to the concrete
permutation `l1 ~ l2`. -/
theorem C7_witness : distValue l1 "Active" = distValue l2 "Active" :=
  C7_perm_asymmetry.1 l1 l2 (by decide) "Active"

/-- C4 counterexample: on `df4` the parent-reference chart totals 1 min,
the containment chart totals 0 min (the pattern `"Block 1 (S)"` is a
regex whose parentheses do not match the literal code), and the spec's
parent-first-with-fallback aggregator totals 2 min; the code's two
independent aggregates each differ from the claimed fallback
aggregation. -/
theorem C4_counterexample :
    parentBlockCat df4 "Block 1 (S)" "Active" = 1
    ∧ containsBlockCat df4 "Block 1 (S)" "Active" = 0
    ∧ specFallbackBlockCat df4 "Block 1 (S)" "Active" = 2
    ∧ (1 : ℚ) ≠ 2 ∧ (0 : ℚ) ≠ 2 := by
  refine ⟨?_, ?_, ?_, by norm_num, by norm_num⟩
  · simp +decide [parentBlockCat, df4, dur, List.filter]
  · simp +decide [containsBlockCat, df4, dur, List.filter]
  · simp +decide [specFallbackBlockCat, df4, dur, List.filter, charsContain, charsStartWith]
    norm_num

/-- C4 amended: the code computes two separate per-block aggregates — a
parent-reference one and a regex-containment one — with no fallback from
one to the other; an event matching neither condition contributes to
neither block aggregate, yet still contributes to the unscoped category
totals when its code equals the category exactly. -/
theorem C4_amended (df : List Event) (e : Event) (block cat : String)
    (hp : (e.parent == some block && e.code == cat) = false)
    (hc : (strContainsRegex e.code block && strContainsRegex e.code cat) = false) :
    parentBlockCat (e :: df) block cat = parentBlockCat df block cat
    ∧ containsBlockCat (e :: df) block cat = containsBlockCat df block cat
    ∧ (e.code = cat → catMinutes (e :: df) cat = dur e / 60 + catMinutes df cat) := by
  refine ⟨?_, ?_, ?_⟩
  · rw [parentBlockCat, parentBlockCat, List.filter_cons, if_neg (by simp [hp])]
  · rw [containsBlockCat, containsBlockCat, List.filter_cons, if_neg (by simp [hc])]
  · intro h
    rw [catMinutes, catMinutes, List.filter_cons, if_pos (by simp [h]),
      List.map_cons, List.sum_cons, add_div]

/-- C4 amended witness: a plain `Organization` event with no parent is
excluded from both block aggregates of `Block 1 (S)` while counting in
the unscoped Organization total. -/
theorem C4_witness :
    parentBlockCat [eW4] "Block 1 (S)" "Organization"
        = parentBlockCat [] "Block 1 (S)" "Organization"
    ∧ catMinutes [eW4] "Organization" = dur eW4 / 60 + catMinutes [] "Organization" :=
  ⟨(C4_amended [] eW4 "Block 1 (S)" "Organization" (by decide) (by decide)).1,
   (C4_amended [] eW4 "Block 1 (S)" "Organization" (by decide) (by decide)).2.2 rfl⟩

/-- C1: index-range block segmentation.  When a block's marker is absent
from the session its per-category totals are all zero; when it is
present, the slice starts at the position of the first event carrying
the marker (searched from index 0 of the whole sequence) and consists
exactly of the events at positions `[s, e)`, where `e` is the position
of the first occurrence of the next marker in `block_order` — itself
located by a search of the whole sequence from index 0, unaffected by
any other marker's absence — or the end of the sequence when the block
is the last one or the next marker is absent. -/
theorem C1_index_range_segmentation (df : List Event) (i : Nat) :
    ((∀ e ∈ df, e.code ≠ blocks.getD i "") → ∀ cat, blockCatMinutes df i cat = 0)
    ∧ (∀ s, blockStartIdx df (blocks.getD i "") = some s →
        isFirstOcc df (blocks.getD i "") s
        ∧ blockSlice df i = posSlice df s (blockEndIdx df i)
        ∧ (blocks.length ≤ i + 1 → blockEndIdx df i = df.length)
        ∧ (∀ t, blockStartIdx df (blocks.getD (i + 1) "") = some t →
            (i + 1 < blocks.length → blockEndIdx df i = t)
            ∧ isFirstOcc df (blocks.getD (i + 1) "") t)
        ∧ (i + 1 < blocks.length → (∀ e ∈ df, e.code ≠ blocks.getD (i + 1) "") →
            blockEndIdx df i = df.length)) := by
  constructor
  · intro h cat
    have hnone := blockStartIdx_eq_none df (blocks.getD i "") h
    simp only [blockCatMinutes, blockSlice, hnone]
    simp [catMinutes]
  · intro s hs
    refine ⟨blockStartIdx_isFirstOcc df _ s hs, ?_, ?_, ?_, ?_⟩
    · simp only [blockSlice, hs]
      exact (posSlice_eq_drop_take df s (blockEndIdx df i)).symm
    · intro hlen
      rw [blockEndIdx, if_neg (by omega)]
    · intro t ht
      refine ⟨fun hlt => ?_, blockStartIdx_isFirstOcc df _ t ht⟩
      rw [blockEndIdx, if_pos hlt]
      simp only [ht]
    · intro hlt habs
      rw [blockEndIdx, if_pos hlt]
      simp only [blockStartIdx_eq_none df _ habs]

/-- C1 witness on `dfW1`: `Block 1 (S)` is absent so its totals are zero,
and the present `Warm Up (S)` block's slice is the positional range from
its first occurrence to the end of the sequence (the next marker being
absent). -/
theorem C1_witness :
    blockCatMinutes dfW1 1 "Coaching" = 0
    ∧ blockSlice dfW1 0 = posSlice dfW1 0 (blockEndIdx dfW1 0)
    ∧ blockEndIdx dfW1 0 = dfW1.length :=
  ⟨(C1_index_range_segmentation dfW1 1).1 (by decide) "Coaching",
   (((C1_index_range_segmentation dfW1 0).2 0 (by decide)).2.1),
   (((C1_index_range_segmentation dfW1 0).2 0 (by decide)).2.2.2.2 (by decide) (by decide))⟩

end DBU
